import Mathlib

/-!
Verification of the alert/notification queue of `sol_meme_trader`.

The store lives in `src/frontend/src/App.jsx` and `src/unnamed/part_002`
(identical code):
  addAlert(alert)  = setAlerts(prev => [alert, ...prev].slice(0, 5))
  dismissAlert(id) = setAlerts(prev => prev.filter(alert => alert.id !== id))
The visible window, notification sound and the rolling auto-dismiss timer
live in `src/frontend/src/components/AlertNotifications.jsx`:
  recentAlerts = [...alerts].slice(0, maxAlerts)        -- maxAlerts = 3
  if recentAlerts.length > 0 && recentAlerts[0] !== visibleAlerts[0]
    playAlertSound(recentAlerts[0].type)
  auto-dismiss : setTimeout 10000 ms dismissing visibleAlerts[last].id,
  cleared and re-armed whenever visibleAlerts changes; not armed when empty.

JavaScript object identity (the `!==` comparison) is modelled by tagging each
alert object with an allocation number `ref`, unique per `addAlert` call: at
every call site of `addAlert` the alert is a fresh object literal.
-/

namespace SolMemeTrader

/-- The alert value as constructed at the `addAlert` call sites: every field
except the numeric `id` may be absent (`undefined` in JavaScript).  The spec
calls the `type` field `kind`. -/
structure Alert where
  id : Nat
  type : Option String
  title : Option String
  message : Option String
  details : Option String
  timestamp : Option String
deriving DecidableEq, Repr

/-- A JavaScript object reference: an allocation tag, unique per construction,
paired with the immutable alert value.  `!==` on objects is `ref ≠ ref`. -/
structure Obj where
  ref : Nat
  val : Alert
deriving DecidableEq, Repr

/-- Store capacity: the literal `5` in `[alert, ...prev].slice(0, 5)`. -/
def storeCapacity : Nat := 5

/-- Default of the `maxAlerts` prop of `AlertNotifications` (no caller
overrides it). -/
def maxAlerts : Nat := 3

/-- The `10000` of `setTimeout(..., 10000)` in the auto-dismiss effect. -/
def ttlMs : Nat := 10000

/-- `addAlert` of App.jsx / part_002: `[alert, ...prev].slice(0, 5)`. -/
def addAlert (alert : Obj) (prev : List Obj) : List Obj :=
  (alert :: prev).take storeCapacity

/-- `dismissAlert` of App.jsx / part_002:
`prev.filter(alert => alert.id !== id)`. -/
def dismissAlert (id : Nat) (prev : List Obj) : List Obj :=
  prev.filter (fun alert => alert.val.id != id)

/-- `visible(limit)`: the renderer's snapshot
`[...alerts].slice(0, maxAlerts)`, generalized over the limit. -/
def visible (limit : Nat) (alerts : List Obj) : List Obj :=
  alerts.take limit

/-- Observable side effects of the subsystem: `playAlertSound(type)` (a
console/audio effect) and an `onDismiss(id)` invocation made by the expiry
timer when it fires. -/
inductive Event where
  | sound (type : Option String)
  | dismissCall (id : Nat)
deriving DecidableEq, Repr

/-- The reference of the head of a list of objects: `l[0]` in the `!==`
comparison (`none` plays the role of `undefined`). -/
def headRef (l : List Obj) : Option Nat :=
  l.head?.map Obj.ref

/-- The sound emitted by the alerts effect of `AlertNotifications`:
`if (recentAlerts.length > 0 && recentAlerts[0] !== visibleAlerts[0])
playAlertSound(recentAlerts[0].type)`. -/
def soundEvents (recent oldVisible : List Obj) : List Event :=
  match recent with
  | [] => []
  | h :: _ => if some h.ref = headRef oldVisible then [] else [Event.sound h.val.type]

/-- Whole-system state: the `alerts` state of App.jsx, the `visibleAlerts`
state and the armed timeout of `AlertNotifications`, an allocation counter for
object references, the trace of emitted side effects, and the snapshots
previously handed out to the renderer. -/
@[ext]
structure SysState where
  nextRef : Nat
  alerts : List Obj
  visibleAlerts : List Obj
  timer : Option (Nat × List Obj)
  events : List Event
  snapshots : List (List Obj)
deriving DecidableEq, Repr

/-- The initial state: `useState([])` for both lists, no timer armed. -/
def init : SysState :=
  { nextRef := 0, alerts := [], visibleAlerts := [], timer := none,
    events := [], snapshots := [] }

/-- The two effects of `AlertNotifications`, run after every change of the
`alerts` prop: recompute the visible window, play the sound when the head
object changed identity, then clear the previous timeout and arm a fresh
10000 ms timeout capturing the new `visibleAlerts` (none when it is empty). -/
def runEffects (s : SysState) : SysState :=
  let recent := s.alerts.take maxAlerts
  { s with
    visibleAlerts := recent,
    events := s.events ++ soundEvents recent s.visibleAlerts,
    timer := if recent = [] then none else some (ttlMs, recent) }

/-- One `addAlert` call from a producer: allocate a fresh object for the alert
literal, prepend-and-truncate, then the component effects run. -/
def addStep (a : Alert) (s : SysState) : SysState :=
  runEffects { s with
    nextRef := s.nextRef + 1,
    alerts := addAlert ⟨s.nextRef, a⟩ s.alerts }

/-- One `dismissAlert(id)` call (close button or any caller): filter the
store, then the component effects run. -/
def dismissStep (id : Nat) (s : SysState) : SysState :=
  runEffects { s with alerts := dismissAlert id s.alerts }

/-- The armed timeout fires: the callback checks its captured `visibleAlerts`
is non-empty and calls `onDismiss(visibleAlerts[visibleAlerts.length - 1].id)`,
which runs `dismissAlert` and re-triggers the effects. -/
def fireStep (s : SysState) : SysState :=
  match s.timer with
  | none => s
  | some (_, captured) =>
    match captured.getLast? with
    | none => { s with timer := none }
    | some tail =>
        dismissStep tail.val.id
          { s with timer := none,
                   events := s.events ++ [Event.dismissCall tail.val.id] }

/-- The operations the environment can perform on the subsystem. -/
inductive Op where
  | add (a : Alert)
  | dismiss (id : Nat)
  | fire
  | snapshot (n : Nat)
deriving DecidableEq, Repr

/-- Apply one operation.  A snapshot records the copy handed to the caller;
it mutates nothing else. -/
def applyOp (op : Op) (s : SysState) : SysState :=
  match op with
  | Op.add a => addStep a s
  | Op.dismiss id => dismissStep id s
  | Op.fire => fireStep s
  | Op.snapshot n => { s with snapshots := s.snapshots ++ [visible n s.alerts] }

/-- Run a sequence of operations from the initial state. -/
def run (ops : List Op) : SysState :=
  ops.foldl (fun s op => applyOp op s) init

/-- State invariant: every stored object reference is below the allocation
counter, the visible window is the 3-prefix of the store, and the armed timer
exists exactly when the window is non-empty and captures the current window
with the 10000 ms duration. -/
def Inv (s : SysState) : Prop :=
  (∀ o ∈ s.alerts, o.ref < s.nextRef)
  ∧ s.visibleAlerts = s.alerts.take maxAlerts
  ∧ s.timer = (if s.visibleAlerts = [] then none
               else some (ttlMs, s.visibleAlerts))

instance (s : SysState) : Decidable (Inv s) := by
  unfold Inv; infer_instance

/-! ### Helper lemmas -/

lemma headRef_take_maxAlerts (l : List Obj) : headRef (l.take maxAlerts) = headRef l := by
  cases l <;> rfl

lemma soundEvents_eq_nil (recent old : List Obj) (h : headRef recent = headRef old) :
    soundEvents recent old = [] := by
  cases recent with
  | nil => rfl
  | cons x t =>
      rw [show headRef (x :: t) = some x.ref from rfl] at h
      simp [soundEvents, h]

lemma soundEvents_fires (recent old : List Obj) (x : Obj)
    (hh : recent.head? = some x) (hne : some x.ref ≠ headRef old) :
    soundEvents recent old = [Event.sound x.val.type] := by
  cases recent with
  | nil => simp at hh
  | cons y t =>
      simp only [List.head?, Option.some_inj] at hh
      subst hh
      simp [soundEvents, hne]

lemma runEffects_alerts (s : SysState) : (runEffects s).alerts = s.alerts := rfl

lemma runEffects_events (s : SysState) :
    (runEffects s).events = s.events ++ soundEvents (s.alerts.take maxAlerts) s.visibleAlerts :=
  rfl

lemma addAlert_length_le (o : Obj) (l : List Obj) :
    (addAlert o l).length ≤ storeCapacity := by
  simp only [addAlert, List.length_take]
  exact Nat.min_le_left ..

lemma foldl_addAlert_length (os : List Obj) (l : List Obj)
    (h : l.length ≤ storeCapacity ∨ os ≠ []) :
    (os.foldl (fun acc x => addAlert x acc) l).length ≤ storeCapacity := by
  induction os generalizing l with
  | nil =>
      rcases h with h | h
      · simpa using h
      · exact absurd rfl h
  | cons x rest ih =>
      simp only [List.foldl_cons]
      exact ih (addAlert x l) (Or.inl (addAlert_length_le x l))

/-! ### Invariant preservation -/

lemma inv_of_runEffects (s : SysState) (h : ∀ o ∈ s.alerts, o.ref < s.nextRef) :
    Inv (runEffects s) :=
  ⟨h, rfl, rfl⟩

lemma inv_addStep (a : Alert) (s : SysState) (h : Inv s) : Inv (addStep a s) := by
  refine inv_of_runEffects _ ?_
  intro o ho
  simp only [addAlert] at ho
  rcases List.mem_cons.mp (List.mem_of_mem_take ho) with rfl | ho
  · exact Nat.lt_succ_self _
  · exact Nat.lt_succ_of_lt (h.1 o ho)

lemma inv_dismissStep (id : Nat) (s : SysState) (h : Inv s) : Inv (dismissStep id s) := by
  refine inv_of_runEffects _ ?_
  intro o ho
  exact h.1 o (List.mem_of_mem_filter ho)

lemma inv_fireStep (s : SysState) (h : Inv s) : Inv (fireStep s) := by
  obtain ⟨h1, h2, h3⟩ := h
  by_cases he : s.visibleAlerts = []
  · have hfs : fireStep s = s := by
      unfold fireStep
      rw [h3]
      simp [he]
    rw [hfs]
    exact ⟨h1, h2, h3⟩
  · have hne : s.visibleAlerts ≠ [] := he
    cases hg : s.visibleAlerts.getLast? with
    | none => exact absurd (List.getLast?_eq_none_iff.mp hg) hne
    | some tail =>
        have hfs : fireStep s = dismissStep tail.val.id
            { s with timer := none,
                     events := s.events ++ [Event.dismissCall tail.val.id] } := by
          unfold fireStep
          rw [h3]
          simp [he, hg]
        rw [hfs]
        refine inv_of_runEffects _ ?_
        intro o ho
        exact h1 o (List.mem_of_mem_filter ho)

lemma inv_applyOp (op : Op) (s : SysState) (h : Inv s) : Inv (applyOp op s) := by
  cases op with
  | add a => exact inv_addStep a s h
  | dismiss id => exact inv_dismissStep id s h
  | fire => exact inv_fireStep s h
  | snapshot n => exact ⟨h.1, h.2.1, h.2.2⟩

lemma inv_init : Inv init := by decide

lemma inv_foldl (ops : List Op) (s : SysState) (h : Inv s) :
    Inv (ops.foldl (fun s op => applyOp op s) s) := by
  induction ops generalizing s with
  | nil => exact h
  | cons op rest ih => exact ih (applyOp op s) (inv_applyOp op s h)

lemma inv_run (ops : List Op) : Inv (run ops) :=
  inv_foldl ops init inv_init

/-! ### Side-effect lemmas -/

lemma head?_take_maxAlerts (l : List Obj) : (l.take maxAlerts).head? = l.head? := by
  cases l <;> rfl

lemma mem_soundEvents (recent old : List Obj) (e : Event) (he : e ∈ soundEvents recent old) :
    ∃ x, recent.head? = some x ∧ e = Event.sound x.val.type := by
  cases recent with
  | nil => simp [soundEvents] at he
  | cons x t =>
      refine ⟨x, rfl, ?_⟩
      by_cases hc : some x.ref = headRef old
      · simp [soundEvents, hc] at he
      · simp [soundEvents, hc] at he
        exact he

lemma addStep_events_sub (a : Alert) (s : SysState) :
    ∀ e ∈ (addStep a s).events, e ∈ s.events ∨ e = Event.sound a.type := by
  intro e he
  have hrw : (addStep a s).events
      = s.events ++
        soundEvents ((addAlert ⟨s.nextRef, a⟩ s.alerts).take maxAlerts) s.visibleAlerts := rfl
  rw [hrw] at he
  rcases List.mem_append.mp he with h | h
  · exact Or.inl h
  · right
    obtain ⟨x, hx, hex⟩ := mem_soundEvents _ _ _ h
    have hh : ((addAlert ⟨s.nextRef, a⟩ s.alerts).take maxAlerts).head?
        = some (⟨s.nextRef, a⟩ : Obj) := rfl
    rw [hh, Option.some_inj] at hx
    rw [hex, ← hx]

lemma addStep_events (a : Alert) (s : SysState) (h : Inv s) :
    (addStep a s).events = s.events ++ [Event.sound a.type] := by
  have hrw : (addStep a s).events
      = s.events ++
        soundEvents ((addAlert ⟨s.nextRef, a⟩ s.alerts).take maxAlerts) s.visibleAlerts := rfl
  rw [hrw]
  congr 1
  refine soundEvents_fires _ _ ⟨s.nextRef, a⟩ rfl ?_
  rw [h.2.1, headRef_take_maxAlerts]
  cases hl : s.alerts with
  | nil => simp [headRef]
  | cons y t =>
      rw [show headRef (y :: t) = some y.ref from rfl]
      have hy : y.ref < s.nextRef := h.1 y (hl ▸ List.mem_cons_self y t)
      simp only [ne_eq, Option.some_inj]
      omega

lemma dismissStep_events_of_head_eq (id : Nat) (s : SysState) (h : Inv s)
    (hhead : headRef (dismissAlert id s.alerts) = headRef s.alerts) :
    (dismissStep id s).events = s.events := by
  have hrw : (dismissStep id s).events
      = s.events ++ soundEvents ((dismissAlert id s.alerts).take maxAlerts) s.visibleAlerts := rfl
  rw [hrw, soundEvents_eq_nil, List.append_nil]
  rw [headRef_take_maxAlerts, hhead, h.2.1, headRef_take_maxAlerts]

lemma dismissStep_events_of_head_ne (id : Nat) (s : SysState) (h : Inv s) (x : Obj)
    (hx : (dismissAlert id s.alerts).head? = some x)
    (hne : some x.ref ≠ headRef s.alerts) :
    (dismissStep id s).events = s.events ++ [Event.sound x.val.type] := by
  have hrw : (dismissStep id s).events
      = s.events ++ soundEvents ((dismissAlert id s.alerts).take maxAlerts) s.visibleAlerts := rfl
  rw [hrw]
  congr 1
  apply soundEvents_fires _ _ x
  · rw [head?_take_maxAlerts]
    exact hx
  · rw [h.2.1, headRef_take_maxAlerts]
    exact hne

lemma dismissAlert_idem (id : Nat) (l : List Obj) :
    dismissAlert id (dismissAlert id l) = dismissAlert id l := by
  simp [dismissAlert]

lemma dismissStep_fixed (id : Nat) (s : SysState)
    (hal : dismissAlert id s.alerts = s.alerts)
    (hvis : s.visibleAlerts = s.alerts.take maxAlerts)
    (htimer : s.timer = if s.visibleAlerts = [] then none
                        else some (ttlMs, s.visibleAlerts)) :
    dismissStep id s = s := by
  have hsnd : soundEvents (s.alerts.take maxAlerts) s.visibleAlerts = [] :=
    soundEvents_eq_nil _ _ (by rw [hvis])
  refine SysState.ext rfl hal ?_ ?_ ?_ rfl
  · show (dismissAlert id s.alerts).take maxAlerts = s.visibleAlerts
    rw [hal, ← hvis]
  · show (if (dismissAlert id s.alerts).take maxAlerts = [] then none
          else some (ttlMs, (dismissAlert id s.alerts).take maxAlerts)) = s.timer
    rw [hal, ← hvis, htimer]
  · show s.events ++ soundEvents ((dismissAlert id s.alerts).take maxAlerts) s.visibleAlerts
        = s.events
    rw [hal, hsnd, List.append_nil]

lemma fireStep_snapshots (s : SysState) : (fireStep s).snapshots = s.snapshots := by
  unfold fireStep
  split
  · rfl
  · split
    · rfl
    · rfl

/-! ### Sample data for witnesses and counterexamples -/

/-- An alert like the DASHBOARD INITIALIZED one of part_002. -/
def sampleInfo : Alert :=
  ⟨1, some "info", some "DASHBOARD INITIALIZED",
   some "System connected to Solana network", none, none⟩

/-- An alert like the WALLET CONNECTED one of App.jsx / part_002. -/
def sampleSuccess : Alert :=
  ⟨2, some "success", some "WALLET CONNECTED",
   some "Successfully connected to wallet", none, none⟩

/-- An alert with id 1 (two `Date.now()` calls in the same millisecond collide). -/
def collideA : Alert := ⟨1, some "info", none, some "first", none, none⟩

/-- A second, distinct alert that also carries id 1. -/
def collideB : Alert := ⟨1, some "success", none, some "second", none, none⟩

/-- A malformed alert: `message` and `kind` (the `type` field) both absent. -/
def malformedAlert : Alert := ⟨7, none, none, none, none, none⟩

/-- A full store of five entries, newest first. -/
def fullStore : List Obj :=
  [⟨4, sampleSuccess⟩, ⟨3, sampleInfo⟩, ⟨2, sampleInfo⟩, ⟨1, sampleInfo⟩, ⟨0, sampleInfo⟩]

/-! ### Claims -/

/-- C1: any sequence of `add` calls leaves the store with at most
`storeCapacity` (5) entries (a non-empty sequence guarantees the bound from any
start state, and the bound is preserved from any state already within
capacity); when an `add` overflows a full store the dropped entry is exactly
the least-recently-inserted (tail) one (`addAlert o l = o :: l.dropLast`); and
an `add` step emits at most the one notification sound for the new head —
never a dismissal event or any other side effect for the evicted entry. -/
theorem addAlert_capacity_and_tail_eviction (os l : List Obj) (o : Obj) (a : Alert)
    (s : SysState) :
    ((l.length ≤ storeCapacity ∨ os ≠ []) →
        (os.foldl (fun acc x => addAlert x acc) l).length ≤ storeCapacity)
    ∧ (l.length = storeCapacity → addAlert o l = o :: l.dropLast)
    ∧ (∀ e ∈ (addStep a s).events, e ∈ s.events ∨ e = Event.sound a.type) := by
  refine ⟨foldl_addAlert_length os l, ?_, addStep_events_sub a s⟩
  intro hlen
  have hdl : l.dropLast = l.take 4 := by
    rw [List.dropLast_eq_take, hlen]
    show List.take 4 l = List.take 4 l
    rfl
  rw [hdl]
  rfl

/-- Witness for C1: one more `add` on a concrete full store stays within
capacity and drops exactly the tail entry. -/
theorem addAlert_capacity_and_tail_eviction_witness :
    (([⟨9, malformedAlert⟩] : List Obj).foldl
        (fun acc x => addAlert x acc) fullStore).length ≤ storeCapacity
    ∧ addAlert ⟨9, malformedAlert⟩ fullStore
        = ⟨9, malformedAlert⟩ :: fullStore.dropLast :=
  ⟨(addAlert_capacity_and_tail_eviction [⟨9, malformedAlert⟩] fullStore
      ⟨9, malformedAlert⟩ malformedAlert init).1 (Or.inl (by decide)),
   (addAlert_capacity_and_tail_eviction [⟨9, malformedAlert⟩] fullStore
      ⟨9, malformedAlert⟩ malformedAlert init).2.1 (by decide)⟩

/-- C2: from any state satisfying the reachable-state invariant, an `add` fires
the notification side effect exactly once, with the new head alert's kind; a
`dismiss` that leaves the identity of the head unchanged fires nothing; and a
`dismiss` that changes the head to a (present) new head fires exactly once with
that new head's kind. -/
theorem notification_fires_iff_head_changes (s : SysState) (hs : Inv s) (a : Alert)
    (id : Nat) :
    (addStep a s).events = s.events ++ [Event.sound a.type]
    ∧ (headRef (dismissAlert id s.alerts) = headRef s.alerts →
        (dismissStep id s).events = s.events)
    ∧ (∀ x, (dismissAlert id s.alerts).head? = some x →
        some x.ref ≠ headRef s.alerts →
        (dismissStep id s).events = s.events ++ [Event.sound x.val.type]) :=
  ⟨addStep_events a s hs,
   dismissStep_events_of_head_eq id s hs,
   fun x hx hne => dismissStep_events_of_head_ne id s hs x hx hne⟩

/-- Witness for C2: adding the sample success alert to the empty initial state
fires exactly one sound event carrying kind `success`. -/
theorem notification_fires_iff_head_changes_witness :
    (addStep sampleSuccess init).events = init.events ++ [Event.sound sampleSuccess.type] :=
  (notification_fires_iff_head_changes init (by decide) sampleSuccess 0).1

/-- C3 counterexample: with two colliding entries (both id 1) simultaneously
present, one `dismiss(1)` call removes BOTH — the code filters on
`alert.id !== id` — leaving `[]`, not the single-removal result
`[⟨0, collideA⟩]` the claim requires. -/
theorem dismiss_collision_counterexample :
    dismissAlert 1 [(⟨1, collideB⟩ : Obj), ⟨0, collideA⟩] = []
    ∧ dismissAlert 1 [(⟨1, collideB⟩ : Obj), ⟨0, collideA⟩] ≠ [⟨0, collideA⟩] := by
  decide

/-- C3 amended: `dismiss(id)` removes every entry whose id equals the argument —
the store keeps exactly the entries whose id differs, in their original
relative order — so when colliding ids are simultaneously present one call
removes all of them, not just one. -/
theorem dismiss_removes_every_match (id : Nat) (l : List Obj) :
    List.Sublist (dismissAlert id l) l
    ∧ (∀ o, o ∈ dismissAlert id l ↔ o ∈ l ∧ o.val.id ≠ id)
    ∧ (∀ o, (dismissAlert id l).count o = if o.val.id = id then 0 else l.count o) := by
  refine ⟨List.filter_sublist l, ?_, ?_⟩
  · intro o
    simp [dismissAlert, List.mem_filter, bne_iff_ne]
  · intro o
    by_cases h : o.val.id = id
    · simp [dismissAlert, h, List.count_eq_zero, List.mem_filter]
    · have hb : (o.val.id != id) = true := by simpa [bne_iff_ne] using h
      rw [if_neg h]
      exact List.count_filter hb

/-- C4: `visible(n)` is a newest-first prefix of the store of length
`min n storeLength`, and no later mutation alters a previously recorded
snapshot (the earlier snapshot list is a prefix of the later one, every
operation included). -/
theorem visible_prefix_and_snapshot_immutable (n : Nat) (l : List Obj) (s : SysState)
    (op : Op) :
    (visible n l).length = min n l.length
    ∧ visible n l <+: l
    ∧ s.snapshots <+: (applyOp op s).snapshots := by
  refine ⟨List.length_take .., List.take_prefix n l, ?_⟩
  cases op with
  | add a => exact List.prefix_rfl
  | dismiss id => exact List.prefix_rfl
  | fire =>
      rw [show applyOp Op.fire s = fireStep s from rfl, fireStep_snapshots]
  | snapshot m => exact List.prefix_append ..

/-- C5: in every reachable state the timeout duration is the fixed
`ttlMs = 10000`; a timer is armed exactly when the visible window is non-empty
(`Option` holds at most one, so at most one timer is ever outstanding and each
rearm replaces the prior one); the armed timer always captures the current
visible window; and firing it dismisses precisely the entry currently at the
tail of the visible window (the currently oldest visible alert). -/
theorem expiry_timer_spec (ops : List Op) :
    ttlMs = 10000
    ∧ ((run ops).timer = none ↔ (run ops).visibleAlerts = [])
    ∧ (∀ d c, (run ops).timer = some (d, c) → d = ttlMs ∧ c = (run ops).visibleAlerts)
    ∧ (∀ t, (run ops).visibleAlerts.getLast? = some t →
        (fireStep (run ops)).alerts = dismissAlert t.val.id (run ops).alerts) := by
  obtain ⟨h1, h2, h3⟩ := inv_run ops
  refine ⟨rfl, ?_, ?_, ?_⟩
  · rw [h3]
    by_cases he : (run ops).visibleAlerts = []
    · simp [he]
    · simp [he]
  · intro d c hdc
    rw [h3] at hdc
    by_cases he : (run ops).visibleAlerts = []
    · rw [if_pos he] at hdc
      exact absurd hdc (by simp)
    · rw [if_neg he] at hdc
      have h' := Option.some_inj.mp hdc
      exact ⟨(Prod.ext_iff.mp h').1.symm, (Prod.ext_iff.mp h').2.symm⟩
  · intro t ht
    have hne : (run ops).visibleAlerts ≠ [] := by
      intro hnil
      rw [hnil] at ht
      simp at ht
    have htm : (run ops).timer = some (ttlMs, (run ops).visibleAlerts) := by
      rw [h3, if_neg hne]
    have hfs : fireStep (run ops) = dismissStep t.val.id
        { run ops with
          timer := none,
          events := (run ops).events ++ [Event.dismissCall t.val.id] } := by
      unfold fireStep
      rw [htm]
      simp [ht]
    rw [hfs]
    rfl

/-- Witness for C5: after a single concrete `add`, firing the armed timer
dismisses the tail (sole entry) of the visible window. -/
theorem expiry_timer_spec_witness :
    (fireStep (run [Op.add sampleInfo])).alerts
      = dismissAlert sampleInfo.id (run [Op.add sampleInfo]).alerts :=
  (expiry_timer_spec [Op.add sampleInfo]).2.2.2 ⟨0, sampleInfo⟩ (by decide)

/-- C6: dismissing an id that is not present leaves the store observably
unchanged — same contents and order — raises no error (the operation is total),
and emits no side effect. -/
theorem stale_dismiss_noop (id : Nat) (l : List Obj) (s : SysState) (hs : Inv s) :
    ((∀ o ∈ l, o.val.id ≠ id) → dismissAlert id l = l)
    ∧ ((∀ o ∈ s.alerts, o.val.id ≠ id) →
        (dismissStep id s).alerts = s.alerts ∧ (dismissStep id s).events = s.events) := by
  have hpure : ∀ (m : List Obj), (∀ o ∈ m, o.val.id ≠ id) → dismissAlert id m = m := by
    intro m hm
    apply List.filter_eq_self.mpr
    intro o ho
    simpa [bne_iff_ne] using hm o ho
  refine ⟨hpure l, ?_⟩
  intro h
  have hal : dismissAlert id s.alerts = s.alerts := hpure s.alerts h
  exact ⟨hal, dismissStep_events_of_head_eq id s hs (by rw [hal])⟩

/-- Witness for C6: `dismiss(99)` on a concrete one-entry store (id 1) changes
nothing. -/
theorem stale_dismiss_noop_witness :
    dismissAlert 99 [(⟨0, collideA⟩ : Obj)] = [(⟨0, collideA⟩ : Obj)]
    ∧ (dismissStep 99 (run [Op.add collideA])).alerts = (run [Op.add collideA]).alerts :=
  ⟨(stale_dismiss_noop 99 [⟨0, collideA⟩] init (by decide)).1 (by decide),
   ((stale_dismiss_noop 99 [⟨0, collideA⟩] (run [Op.add collideA])
       (by decide)).2 (by decide)).1⟩

/-- C7: `dismiss(id)` is idempotent, on the bare store and on the whole system
state (visible window, timer, event trace and snapshots included), with or
without colliding ids in the store. -/
theorem dismiss_idempotent (id : Nat) (l : List Obj) (s : SysState) :
    dismissAlert id (dismissAlert id l) = dismissAlert id l
    ∧ dismissStep id (dismissStep id s) = dismissStep id s :=
  ⟨dismissAlert_idem id l,
   dismissStep_fixed id (dismissStep id s) (dismissAlert_idem id s.alerts) rfl rfl⟩

/-- C8: `add` is total and never rejects: any alert value — the malformed one
with `message` and `kind` both absent included — is inserted at the head of the
store unmodified. -/
theorem add_accepts_malformed (o : Obj) (l : List Obj) (a : Alert) (s : SysState) :
    (addAlert o l).head? = some o
    ∧ (addStep a s).alerts.head?.map Obj.val = some a
    ∧ (addStep malformedAlert s).alerts.head?.map Obj.val = some malformedAlert :=
  ⟨rfl, rfl, rfl⟩

/-- C9: mutations preserve the surviving entries and their relative order:
`add` keeps the retained prefix of the old store unchanged (only tail entries
beyond index `storeCapacity - 1` are dropped), and `dismiss` keeps the
non-matching entries as a sublist (same order), every non-matching entry
surviving. -/
theorem mutation_frame (o : Obj) (l : List Obj) (id : Nat) :
    addAlert o l = o :: l.take (storeCapacity - 1)
    ∧ l.take (storeCapacity - 1) <+: l
    ∧ List.Sublist (dismissAlert id l) l
    ∧ (∀ x ∈ l, x.val.id ≠ id → x ∈ dismissAlert id l) := by
  refine ⟨rfl, List.take_prefix _ l, List.filter_sublist l, ?_⟩
  intro x hx hne
  simp [dismissAlert, List.mem_filter, bne_iff_ne]
  exact ⟨hx, hne⟩

/-- Witness for C9: the entry with a different id survives a concrete dismiss. -/
theorem mutation_frame_witness :
    (⟨1, sampleSuccess⟩ : Obj) ∈ dismissAlert 1 [(⟨1, sampleSuccess⟩ : Obj), ⟨0, collideA⟩] :=
  (mutation_frame ⟨0, collideA⟩ [⟨1, sampleSuccess⟩, ⟨0, collideA⟩] 1).2.2.2
    ⟨1, sampleSuccess⟩ (by decide) (by decide)

/-- C10: when a dismiss empties the store (the last remaining alert removed),
the notification side effect does not fire — the event trace is unchanged —
even though the head identity changed from that alert to none. -/
theorem dismiss_to_empty_silent (id : Nat) (s : SysState) (hne : s.alerts ≠ [])
    (hempty : dismissAlert id s.alerts = []) :
    (dismissStep id s).alerts = []
    ∧ (dismissStep id s).visibleAlerts = []
    ∧ (dismissStep id s).events = s.events
    ∧ headRef s.alerts ≠ headRef (dismissAlert id s.alerts) := by
  refine ⟨hempty, ?_, ?_, ?_⟩
  · show (dismissAlert id s.alerts).take maxAlerts = []
    rw [hempty]
    rfl
  · show s.events ++ soundEvents ((dismissAlert id s.alerts).take maxAlerts) s.visibleAlerts
        = s.events
    rw [hempty]
    simp [soundEvents]
  · rw [hempty]
    cases hl : s.alerts with
    | nil => exact absurd hl hne
    | cons y t => simp [headRef]

/-- Witness for C10: dismissing the only alert of a concrete one-entry store
emits no sound event. -/
theorem dismiss_to_empty_silent_witness :
    (dismissStep 1 (run [Op.add collideA])).events = (run [Op.add collideA]).events :=
  (dismiss_to_empty_silent 1 (run [Op.add collideA]) (by decide) (by decide)).2.2.1

end SolMemeTrader
